import Mathlib

/-!
Verification of the access-control and audit subsystem of the
connectingerp1/serverbackend lead-CRM server (`src/server.js`, second
revision, which is the one the running server executes).

Shallow embedding conventions:
* MongoDB ObjectIds are modelled by `Nat` (stable identity values; all ids
  in scope are well-formed, so the `mongoose.Types.ObjectId.isValid`
  branches of the handlers are not reached and are omitted).
* Collections are association lists `List (Nat × _)` keyed by `_id`.
* Timestamps (`createdAt`, `updatedAt`, `deletedAt`, `lastLogin`) carry no
  information relevant to any claim and are omitted from the records.
* A handler is a pure function from the request data and the relevant
  store state to a response `Outcome` together with the updated stores and
  logs.  HTTP statuses map to outcome constructors:
  403 → `forbidden` / `forbiddenRestricted`, 400 → `badRequest`,
  404 → `notFound`, 200/201 → the `ok…` constructors, 500 → `serverError`
  (login route only).
* Fallibility of the best-effort log writes (`AuditLog.create`,
  `ActivityLog.create`) is modelled by a Boolean `auditOk` / `activityOk`
  parameter: `false` means the store write throws; the `try/catch` inside
  `logAction` / `trackActivity` swallows the error.
-/

/-- Admin roles, the closed enum of `adminSchema.role`
(`['SuperAdmin','Admin','ViewMode','EditMode']`, server.js line 230). -/
inductive Role where
  | superAdmin
  | admin
  | viewMode
  | editMode
deriving DecidableEq, Repr

/-- Lead status enum (`userSchema.status`, server.js line 189). -/
inductive LeadStatus where
  | new
  | contacted
  | converted
  | rejected
deriving DecidableEq, Repr

/-- A lead document (`userSchema`, server.js lines 182-196).  `assignedTo`
is a nullable reference to an Admin id. -/
structure Lead where
  name : String
  email : String
  contact : String
  countryCode : Option String
  coursename : Option String
  location : Option String
  status : LeadStatus
  contactedScore : Option Nat
  contactedComment : Option String
  notes : String
  assignedTo : Option Nat
deriving DecidableEq, Repr

/-- The eleven mutable lead fields the update handlers whitelist. -/
inductive LeadField where
  | name
  | email
  | contact
  | countryCode
  | coursename
  | location
  | status
  | notes
  | assignedTo
  | contactedScore
  | contactedComment
deriving DecidableEq, Repr

/-- A JSON value as it appears in a request body for a lead field.  The
constructor records the shape the mongoose schema casts the field to. -/
inductive FieldVal where
  | s : String → FieldVal
  | os : Option String → FieldVal
  | st : LeadStatus → FieldVal
  | onat : Option Nat → FieldVal
deriving DecidableEq, Repr

/-- Read one field of a lead as a `FieldVal` (the `originalLead[key]`
lookups in the audit-delta loops). -/
def Lead.getField (l : Lead) : LeadField → FieldVal
  | .name => .s l.name
  | .email => .s l.email
  | .contact => .s l.contact
  | .countryCode => .os l.countryCode
  | .coursename => .os l.coursename
  | .location => .os l.location
  | .status => .st l.status
  | .notes => .s l.notes
  | .assignedTo => .onat l.assignedTo
  | .contactedScore => .onat l.contactedScore
  | .contactedComment => .os l.contactedComment

/-- Whether a request value has the shape the schema expects for a field
(mongoose casting succeeds). -/
def FieldVal.compat : LeadField → FieldVal → Bool
  | .name, .s _ => true
  | .email, .s _ => true
  | .contact, .s _ => true
  | .notes, .s _ => true
  | .countryCode, .os _ => true
  | .coursename, .os _ => true
  | .location, .os _ => true
  | .contactedComment, .os _ => true
  | .status, .st _ => true
  | .contactedScore, .onat _ => true
  | .assignedTo, .onat _ => true
  | _, _ => false

/-- A request body for a lead mutation: for each recognised field, the
value supplied, or `none` when the key is `undefined` in `req.body`. -/
def LeadBody := LeadField → Option FieldVal

/-- The `updateFields` object a handler builds by walking its
`allowedFields` whitelist and copying the defined body values
(`for (const key of allowedFields) if (req.body[key] !== undefined) ...`),
viewed as a partial map. -/
def routeUpdate (allowed : List LeadField) (body : LeadBody) : LeadBody :=
  fun f => if f ∈ allowed then body f else none

/-- The same `updateFields` object viewed as its key-ordered entry list
(insertion order = whitelist order, as `Object.keys` iterates it). -/
def updateFieldsList (allowed : List LeadField) (body : LeadBody) :
    List (LeadField × FieldVal) :=
  allowed.filterMap fun f => (body f).map fun v => (f, v)

/-- The `metadataWithChanges.updateFields` object of the PUT/PATCH lead
handlers: for each key of `updateFields`, the `{ from: originalLead[key],
to: updateFields[key] }` pair, in key order. -/
def updateDelta (orig : Lead) (allowed : List LeadField) (body : LeadBody) :
    List (LeadField × FieldVal × FieldVal) :=
  (updateFieldsList allowed body).map fun p => (p.1, orig.getField p.1, p.2)

/-- `findByIdAndUpdate(id, updateFields)`: each provided field whose value
casts to the schema type is overwritten; other fields are untouched. -/
def applyUpdate (l : Lead) (u : LeadBody) : Lead :=
  { name := match u .name with | some (.s v) => v | _ => l.name
    email := match u .email with | some (.s v) => v | _ => l.email
    contact := match u .contact with | some (.s v) => v | _ => l.contact
    countryCode := match u .countryCode with | some (.os v) => v | _ => l.countryCode
    coursename := match u .coursename with | some (.os v) => v | _ => l.coursename
    location := match u .location with | some (.os v) => v | _ => l.location
    status := match u .status with | some (.st v) => v | _ => l.status
    contactedScore := match u .contactedScore with | some (.onat v) => v | _ => l.contactedScore
    contactedComment := match u .contactedComment with | some (.os v) => v | _ => l.contactedComment
    notes := match u .notes with | some (.s v) => v | _ => l.notes
    assignedTo := match u .assignedTo with | some (.onat v) => v | _ => l.assignedTo }

/-- The lead collection, keyed by `_id`. -/
abbrev LeadStore := List (Nat × Lead)

/-- `User.findById(id)`. -/
def findById (store : LeadStore) (id : Nat) : Option Lead :=
  (store.find? fun e => e.1 = id).map (·.2)

/-- Replace the document with the given `_id` (the write half of
`findByIdAndUpdate`). -/
def storeSet (store : LeadStore) (id : Nat) (l : Lead) : LeadStore :=
  store.map fun e => if e.1 = id then (id, l) else e

/-- The authenticated caller as decoded from the JWT: `req.admin = { id, role }`. -/
structure Actor where
  id : Nat
  role : Role
deriving DecidableEq, Repr

/-- The per-field permission booleans of one resource
(`rolePermissionSchema.permissions.{users,leads,admins}`). -/
structure PermSet where
  create : Bool
  read : Bool
  update : Bool
  delete : Bool
deriving DecidableEq, Repr

/-- One role's permission grid (`rolePermissionSchema.permissions`). -/
structure PermGrid where
  users : PermSet
  leads : PermSet
  admins : PermSet
  analyticsView : Bool
  auditLogsView : Bool
deriving DecidableEq, Repr

/-- One row of the `RolePermission` collection (role is the unique key). -/
structure GrantRow where
  role : Role
  permissions : PermGrid
deriving DecidableEq, Repr

/-- The four default grants created by `initializeRolePermissions` in
server.js (lines 371-428), in creation order. -/
def serverDefaultGrants : List GrantRow :=
  [ { role := .superAdmin
      permissions :=
        { users := ⟨true, true, true, true⟩
          leads := ⟨true, true, true, true⟩
          admins := ⟨true, true, true, true⟩
          analyticsView := true
          auditLogsView := true } }
  , { role := .admin
      permissions :=
        { users := ⟨true, true, true, true⟩
          leads := ⟨true, true, true, true⟩
          admins := ⟨false, true, false, false⟩
          analyticsView := true
          auditLogsView := false } }
  , { role := .viewMode
      permissions :=
        { users := ⟨false, true, false, false⟩
          leads := ⟨false, true, false, false⟩
          admins := ⟨false, false, false, false⟩
          analyticsView := false
          auditLogsView := false } }
  , { role := .editMode
      permissions :=
        { users := ⟨true, true, true, false⟩
          leads := ⟨true, true, true, false⟩
          admins := ⟨false, false, false, false⟩
          analyticsView := false
          auditLogsView := false } } ]

/-- The four default grants created by the standalone
`src/init-permissions.js` script (lines 45-121); same shape, slightly
different grids (ViewMode has no users.read, EditMode has leads.delete). -/
def scriptDefaultGrants : List GrantRow :=
  [ { role := .superAdmin
      permissions :=
        { users := ⟨true, true, true, true⟩
          leads := ⟨true, true, true, true⟩
          admins := ⟨true, true, true, true⟩
          analyticsView := true
          auditLogsView := true } }
  , { role := .admin
      permissions :=
        { users := ⟨true, true, true, true⟩
          leads := ⟨true, true, true, true⟩
          admins := ⟨false, true, false, false⟩
          analyticsView := true
          auditLogsView := false } }
  , { role := .viewMode
      permissions :=
        { users := ⟨false, false, false, false⟩
          leads := ⟨false, true, false, false⟩
          admins := ⟨false, false, false, false⟩
          analyticsView := false
          auditLogsView := false } }
  , { role := .editMode
      permissions :=
        { users := ⟨false, false, false, false⟩
          leads := ⟨true, true, true, true⟩
          admins := ⟨false, false, false, false⟩
          analyticsView := false
          auditLogsView := false } } ]

/-- The seeding routine shared by server.js `initializeRolePermissions`
and init-permissions.js: `countDocuments()`, and only when the count is
zero, create the four default rows. -/
def seedRolePermissions (defaults table : List GrantRow) : List GrantRow :=
  if table.length = 0 then defaults else table

/-- server.js `initializeRolePermissions` (lines 371-428), as a function
on the grant table. -/
def initializeRolePermissions (table : List GrantRow) : List GrantRow :=
  seedRolePermissions serverDefaultGrants table

/-- init-permissions.js `initializeRolePermissions` (lines 45-121). -/
def initPermissionsScript (table : List GrantRow) : List GrantRow :=
  seedRolePermissions scriptDefaultGrants table

/-- C6: The permission-grant seeding routine is idempotent: from an empty
grant table one invocation creates exactly the 4 rows, one per role, a
second invocation leaves them untouched (4 rows, not 8), and any
invocation on a non-empty table creates no rows.  Shown for the server's
seeding routine and for the standalone script's. -/
theorem seeding_idempotent :
    (initializeRolePermissions []).length = 4 ∧
    (initializeRolePermissions []).map GrantRow.role =
      [.superAdmin, .admin, .viewMode, .editMode] ∧
    initializeRolePermissions (initializeRolePermissions []) =
      initializeRolePermissions [] ∧
    (∀ table : List GrantRow, table.length ≠ 0 →
      initializeRolePermissions table = table) ∧
    (initPermissionsScript []).length = 4 ∧
    initPermissionsScript (initPermissionsScript []) = initPermissionsScript [] ∧
    (∀ table : List GrantRow, table.length ≠ 0 →
      initPermissionsScript table = table) := by
  refine ⟨rfl, rfl, rfl, ?_, rfl, rfl, ?_⟩ <;>
    · intro table h
      simp [initializeRolePermissions, initPermissionsScript,
        seedRolePermissions, h]

/-- Witness for C6: invoking the server seeding on the already-seeded
4-row table creates no rows. -/
theorem seeding_idempotent_witness :
    serverDefaultGrants.length ≠ 0 ∧
    initializeRolePermissions serverDefaultGrants = serverDefaultGrants := by
  exact ⟨by decide, seeding_idempotent.2.2.2.1 serverDefaultGrants (by decide)⟩

/-- Basic lead info extracted for bulk audit metadata
(`{ id, name, email, contact }`, plus `status` for bulk-delete). -/
structure LeadInfo where
  id : Nat
  name : String
  email : String
  contact : String
  status : Option LeadStatus
deriving DecidableEq, Repr

/-- The metadata objects the handlers pass to `logAction`, one constructor
per action shape.  `update` is the PUT/PATCH lead metadata with the
per-field `{from, to}` delta (`metadataWithChanges`); `userUpdate` is the
`PUT /api/users/:id` metadata, which carries only the new values
(`{ userId, updateFields }`); its three trailing options are the
`leadName`/`leadEmail`/`leadContact` keys that only `logAction`'s
enrichment may add. -/
inductive AuditMeta where
  | update (userId : Nat) (leadName leadEmail leadContact : String)
      (delta : List (LeadField × FieldVal × FieldVal))
  | userUpdate (userId : Nat) (updateFields : List (LeadField × FieldVal))
      (leadName leadEmail leadContact : Option String)
  | deleteLead (leadId userId : Nat) (leadName leadEmail leadContact : String)
      (leadStatus : LeadStatus)
  | bulkUpdate (count : Nat) (updateFields : List (LeadField × FieldVal))
      (affectedLeads : List LeadInfo)
  | bulkDelete (count : Nat) (leadIds : List Nat) (deletedLeads : List LeadInfo)
  | deleteAdmin (adminId : Nat) (username : String) (email : Option String)
      (role : Role) (location : String)
  | updateRolePermissions (role : Role) (permissions : PermGrid)
  | login
deriving DecidableEq, Repr

/-- One `AuditLog` document (server.js lines 241-248). -/
structure AuditEntry where
  adminId : Nat
  action : String
  target : String
  metadata : AuditMeta
deriving DecidableEq, Repr

/-- `logAction`'s enrichment step (server.js lines 337-348): when the
metadata has a `userId`, re-fetch that user and overwrite
`leadName`/`leadEmail`/`leadContact` with the fetched (current) values;
when the fetch finds nothing the metadata is left as passed. -/
def enrichMeta (store : LeadStore) : AuditMeta → AuditMeta
  | .update uid n e c d =>
      match findById store uid with
      | some u => .update uid u.name u.email u.contact d
      | none => .update uid n e c d
  | .userUpdate uid fs n e c =>
      match findById store uid with
      | some u => .userUpdate uid fs (some u.name) (some u.email) (some u.contact)
      | none => .userUpdate uid fs n e c
  | .deleteLead lid uid n e c s =>
      match findById store uid with
      | some u => .deleteLead lid uid u.name u.email u.contact s
      | none => .deleteLead lid uid n e c s
  | m => m

/-- `logAction` (server.js lines 334-359): enrich `'User'`-targeted
metadata, then `AuditLog.create`; a failing create (`auditOk = false`) is
caught and swallowed, so the function always returns and the log is
simply left unchanged on failure. -/
def logAction (auditOk : Bool) (store : LeadStore) (log : List AuditEntry)
    (adminId : Nat) (action target : String) (metadata : AuditMeta) :
    List AuditEntry :=
  let m := if target = "User" then enrichMeta store metadata else metadata
  if auditOk then log ++ [⟨adminId, action, target, m⟩] else log

/-- One `ActivityLog` document (server.js lines 261-268). -/
structure ActivityEntry where
  adminId : Nat
  action : String
  page : String
  details : String
deriving DecidableEq, Repr

/-- `trackActivity` (server.js lines 362-368): `ActivityLog.create` inside
a `try/catch`; a failing create leaves the log unchanged. -/
def trackActivity (activityOk : Bool) (alog : List ActivityEntry)
    (adminId : Nat) (action page details : String) : List ActivityEntry :=
  if activityOk then alog ++ [⟨adminId, action, page, details⟩] else alog

/-- Response outcomes of the admin-gated routes.  `forbidden` is the
403 of `requireRole`, `forbiddenRestricted` the 403 with
`restricted: true` of the PATCH restriction gate, `badRequest` a 400 with
the code's message, `notFound` a 404. -/
inductive Outcome where
  | forbidden
  | forbiddenRestricted
  | badRequest (msg : String)
  | notFound
  | okLead (lead : Lead)
  | okBulk (count : Nat)
  | okMsg (msg : String)
  | okGrant (row : GrantRow)
deriving DecidableEq, Repr

/-- The `allowedFields` whitelist of `PUT /api/leads/:id` (line 592) and
of `PUT /api/users/:id` (line 1264). -/
def putAllowedFields : List LeadField :=
  [.name, .email, .contact, .countryCode, .coursename, .location,
   .status, .notes, .assignedTo, .contactedScore, .contactedComment]

/-- The base `allowedFields` of `PATCH /api/leads/:id` (line 641): the
fields a ViewMode caller may update. -/
def patchBaseFields : List LeadField :=
  [.contactedScore, .contactedComment, .status]

/-- The role-dependent `allowedFields` of `PATCH /api/leads/:id`
(lines 641-646): SuperAdmin/Admin/EditMode get the expanded list. -/
def patchAllowedFields (r : Role) : List LeadField :=
  if r = .superAdmin ∨ r = .admin ∨ r = .editMode then
    patchBaseFields ++
      [.name, .email, .contact, .countryCode, .coursename, .location,
       .notes, .assignedTo]
  else patchBaseFields

/-- The `allowedFields` of the bulk-update route (line 758). -/
def bulkAllowedFields : List LeadField :=
  [.status, .notes, .assignedTo, .contactedScore, .contactedComment]

/-- `PUT /api/leads/:id` (server.js lines 588-632).  Gate:
`requireRole(['SuperAdmin','Admin','EditMode'])`.  No restriction-mode
check is present in this handler; the `restrictSetting` argument models
the global `restrictLeadEditing` setting, which this handler never reads. -/
def putLeadRoute (auditOk : Bool) (a : Actor) (restrictSetting : Option Bool)
    (store : LeadStore) (log : List AuditEntry) (id : Nat) (body : LeadBody) :
    Outcome × LeadStore × List AuditEntry :=
  if a.role ∉ [Role.superAdmin, Role.admin, Role.editMode] then
    (.forbidden, store, log)
  else
    let u := routeUpdate putAllowedFields body
    match findById store id with
    | none => (.notFound, store, log)
    | some orig =>
        let updated := applyUpdate orig u
        let store' := storeSet store id updated
        let log' := logAction auditOk store' log a.id "update_lead" "User"
          (.update id orig.name orig.email orig.contact
            (updateDelta orig putAllowedFields body))
        (.okLead updated, store', log')

/-- `PATCH /api/leads/:id` (server.js lines 635-706).  Gate:
`requireRole(['SuperAdmin','Admin','EditMode','ViewMode'])`; role-dependent
field whitelist; then the restriction gate: when `restrictLeadEditing`
(default `false` when the setting is absent) holds and the caller is
neither SuperAdmin nor Admin, deny with `restricted: true` unless the
lead's `assignedTo` id equals the caller's id (a lead with
`assignedTo = null` always fails this comparison). -/
def patchLeadRoute (auditOk : Bool) (a : Actor) (restrictSetting : Option Bool)
    (store : LeadStore) (log : List AuditEntry) (id : Nat) (body : LeadBody) :
    Outcome × LeadStore × List AuditEntry :=
  if a.role ∉ [Role.superAdmin, Role.admin, Role.editMode, Role.viewMode] then
    (.forbidden, store, log)
  else
    let allowed := patchAllowedFields a.role
    let u := routeUpdate allowed body
    match findById store id with
    | none => (.notFound, store, log)
    | some orig =>
        let restrict := restrictSetting.getD false
        if restrict ∧ a.role ≠ .superAdmin ∧ a.role ≠ .admin ∧
            orig.assignedTo ≠ some a.id then
          (.forbiddenRestricted, store, log)
        else
          let updated := applyUpdate orig u
          let store' := storeSet store id updated
          let log' := logAction auditOk store' log a.id "update_lead" "User"
            (.update id orig.name orig.email orig.contact
              (updateDelta orig allowed body))
          (.okLead updated, store', log')

/-- `DELETE /api/leads/:id` (server.js lines 709-741).  Gate:
`requireRole(['SuperAdmin','Admin'])`. -/
def deleteLeadRoute (auditOk : Bool) (a : Actor) (store : LeadStore)
    (log : List AuditEntry) (id : Nat) :
    Outcome × LeadStore × List AuditEntry :=
  if a.role ∉ [Role.superAdmin, Role.admin] then (.forbidden, store, log)
  else
    match findById store id with
    | none => (.notFound, store, log)
    | some orig =>
        let store' := store.filter fun e => e.1 ≠ id
        let log' := logAction auditOk store' log a.id "delete_lead" "User"
          (.deleteLead id id orig.name orig.email orig.contact orig.status)
        (.okMsg "Lead deleted successfully.", store', log')

/-- `PUT /api/leads/bulk-update` (server.js lines 745-795).  Gate:
`requireRole(['SuperAdmin','Admin','EditMode'])`; no restriction-mode
check.  `modifiedCount` counts the matched documents the `$set` actually
changed. -/
def bulkUpdateRoute (auditOk : Bool) (a : Actor) (restrictSetting : Option Bool)
    (store : LeadStore) (log : List AuditEntry) (leadIds : List Nat)
    (updateData : LeadBody) : Outcome × LeadStore × List AuditEntry :=
  if a.role ∉ [Role.superAdmin, Role.admin, Role.editMode] then
    (.forbidden, store, log)
  else if leadIds.length = 0 then (.badRequest "No lead IDs provided.", store, log)
  else if (updateFieldsList putAllowedFields updateData).length = 0 then
    (.badRequest "No update data provided.", store, log)
  else
    let u := routeUpdate bulkAllowedFields updateData
    let originals := store.filter fun e => e.1 ∈ leadIds
    let leadsInfo := originals.map fun e =>
      LeadInfo.mk e.1 e.2.name e.2.email e.2.contact none
    let store' := store.map fun e =>
      if e.1 ∈ leadIds then (e.1, applyUpdate e.2 u) else e
    let modifiedCount := (originals.filter fun e => applyUpdate e.2 u ≠ e.2).length
    let log' := logAction auditOk store' log a.id "bulk_update_leads" "User"
      (.bulkUpdate modifiedCount (updateFieldsList bulkAllowedFields updateData)
        leadsInfo)
    (.okBulk modifiedCount, store', log')

/-- `DELETE /api/leads/bulk-delete` (server.js lines 798-836).  Gate:
`requireRole(['SuperAdmin','Admin'])`.  The leads matching the requested
ids are fetched for the audit metadata, then `deleteMany` removes them;
the response and the audit `count` are the store's `deletedCount`. -/
def bulkDeleteRoute (auditOk : Bool) (a : Actor) (store : LeadStore)
    (log : List AuditEntry) (leadIds : List Nat) :
    Outcome × LeadStore × List AuditEntry :=
  if a.role ∉ [Role.superAdmin, Role.admin] then (.forbidden, store, log)
  else if leadIds.length = 0 then (.badRequest "No lead IDs provided.", store, log)
  else
    let toDelete := store.filter fun e => e.1 ∈ leadIds
    let leadsInfo := toDelete.map fun e =>
      LeadInfo.mk e.1 e.2.name e.2.email e.2.contact (some e.2.status)
    let store' := store.filter fun e => e.1 ∉ leadIds
    let deletedCount := toDelete.length
    let log' := logAction auditOk store' log a.id "bulk_delete_leads" "User"
      (.bulkDelete deletedCount leadIds leadsInfo)
    (.okBulk deletedCount, store', log')

/-- `PUT /api/users/:id` (server.js lines 1261-1277).  Gate:
`requireRole(['SuperAdmin','Admin','EditMode'])`.  Its audit metadata is
`{ userId, updateFields }` — the new values only, with no `{from, to}`
delta. -/
def putUserRoute (auditOk : Bool) (a : Actor) (store : LeadStore)
    (log : List AuditEntry) (id : Nat) (body : LeadBody) :
    Outcome × LeadStore × List AuditEntry :=
  if a.role ∉ [Role.superAdmin, Role.admin, Role.editMode] then
    (.forbidden, store, log)
  else
    let u := routeUpdate putAllowedFields body
    match findById store id with
    | none => (.notFound, store, log)
    | some orig =>
        let updated := applyUpdate orig u
        let store' := storeSet store id updated
        let log' := logAction auditOk store' log a.id "update_user" "User"
          (.userUpdate id (updateFieldsList putAllowedFields body) none none none)
        (.okMsg "User updated.", store', log')

/-- An admin account document (`adminSchema`, server.js lines 226-238;
`password` holds the bcrypt hash). -/
structure AdminRec where
  username : String
  password : String
  email : Option String
  role : Role
  active : Bool
  location : String
deriving DecidableEq, Repr

/-- The admin collection, keyed by `_id`. -/
abbrev AdminStore := List (Nat × AdminRec)

/-- `Admin.findById(id)`. -/
def findAdminById (admins : AdminStore) (id : Nat) : Option AdminRec :=
  (admins.find? fun e => e.1 = id).map (·.2)

/-- `DELETE /api/admins/:id` (server.js lines 1056-1084).  Gate:
`requireRole(['SuperAdmin'])`; then the self-deletion guard
`req.admin.id === id` (string identity values; here `Nat` ids), then
fetch-for-audit, delete, and `logAction`.  The lead store is passed only
because `logAction` may consult it (it does not for `'Admin'` targets). -/
def deleteAdminRoute (auditOk : Bool) (a : Actor) (admins : AdminStore)
    (leadStore : LeadStore) (log : List AuditEntry) (id : Nat) :
    Outcome × AdminStore × List AuditEntry :=
  if a.role ∉ [Role.superAdmin] then (.forbidden, admins, log)
  else if a.id = id then (.badRequest "You cannot delete yourself.", admins, log)
  else
    match findAdminById admins id with
    | none => (.notFound, admins, log)
    | some rec =>
        let admins' := admins.filter fun e => e.1 ≠ id
        let log' := logAction auditOk leadStore log a.id "delete_admin" "Admin"
          (.deleteAdmin id rec.username rec.email rec.role rec.location)
        (.okMsg "Admin deleted.", admins', log')

/-- `PUT /api/role-permissions/:role` (server.js lines 1098-1126).  Gate:
`requireRole(['SuperAdmin'])`; 400 when the body carries no permissions;
400 `'Cannot modify SuperAdmin permissions.'` unless the target role is
one of Admin/ViewMode/EditMode; then `findOneAndUpdate({ role })`.  The
route parameter is the role name string, modelled by `Role` (the four
claims only concern well-formed role names). -/
def putRolePermissionsRoute (auditOk : Bool) (a : Actor)
    (table : List GrantRow) (leadStore : LeadStore) (log : List AuditEntry)
    (target : Role) (permissions : Option PermGrid) :
    Outcome × List GrantRow × List AuditEntry :=
  if a.role ∉ [Role.superAdmin] then (.forbidden, table, log)
  else
    match permissions with
    | none => (.badRequest "Permissions are required.", table, log)
    | some perms =>
        if target ∉ [Role.admin, Role.viewMode, Role.editMode] then
          (.badRequest "Cannot modify SuperAdmin permissions.", table, log)
        else
          match table.find? fun r => r.role = target with
          | none => (.notFound, table, log)
          | some _ =>
              let table' := table.map fun r =>
                if r.role = target then { r with permissions := perms } else r
              let log' := logAction auditOk leadStore log a.id
                "update_role_permissions" "RolePermission"
                (.updateRolePermissions target perms)
              (.okGrant ⟨target, perms⟩, table', log')

/-- `POST /api/activity` (server.js lines 1307-1315): any authenticated
caller; responds 200 after the best-effort `trackActivity`. -/
def activityRoute (activityOk : Bool) (a : Actor) (alog : List ActivityEntry)
    (action page details : String) : Outcome × List ActivityEntry :=
  (.okMsg "Activity logged.", trackActivity activityOk alog a.id action page details)

/-- One `LoginHistory` document (server.js lines 251-258).  The schema
declares `adminId` with `required: true`; `success` is required too. -/
structure LoginEntry where
  adminId : Option Nat
  ipAddress : String
  userAgent : String
  success : Bool
deriving DecidableEq, Repr

/-- `LoginHistory.create`: mongoose validates the document against the
schema before inserting; `adminId: null` fails the `required: true`
validation, so the create throws instead of inserting. -/
def loginHistoryCreate (hist : List LoginEntry) (e : LoginEntry) :
    Except String (List LoginEntry) :=
  match e.adminId with
  | none => .error "LoginHistory validation failed: adminId is required"
  | some _ => .ok (hist ++ [e])

/-- The account lookup of `POST /api/admin-login` (server.js lines
914-920): `findOne({ username, active: true })`, then — only when that
finds nothing and the identifier contains `'@'` — `findOne({ email:
username.toLowerCase().trim(), active: true })`. -/
def findAdminForLogin (admins : AdminStore) (username : String) :
    Option (Nat × AdminRec) :=
  match admins.find? fun e => e.2.username = username ∧ e.2.active with
  | some hit => some hit
  | none =>
      if '@' ∈ username.toList then
        admins.find? fun e =>
          e.2.email = some (username.toLower.trim) ∧ e.2.active
      else none

/-- Responses of `POST /api/admin-login`. -/
inductive LoginOutcome where
  | badRequest (msg : String)
  | unauthorized (msg : String)
  | okLogin (adminId : Nat) (role : Role)
  | serverError (msg : String)
deriving DecidableEq, Repr

/-- `POST /api/admin-login` (server.js lines 900-968).  `compare` is the
external `bcrypt.compare(plaintext, hash)` collaborator.  Every thrown
error inside the handler body — including a `LoginHistory.create`
validation failure — lands in the outer `catch` and yields the 500
`'Server error.'` response.  On success the handler also updates
`lastLogin` (a timestamp, omitted here), issues a token, and audit-logs
the login. -/
def adminLogin (auditOk : Bool) (compare : String → String → Bool)
    (admins : AdminStore) (leadStore : LeadStore) (hist : List LoginEntry)
    (log : List AuditEntry) (username password ip ua : String) :
    LoginOutcome × List LoginEntry × List AuditEntry :=
  if username = "" ∨ password = "" then
    (.badRequest "Username and password required.", hist, log)
  else
    match findAdminForLogin admins username with
    | none =>
        match loginHistoryCreate hist ⟨none, ip, ua, false⟩ with
        | .error _ => (.serverError "Server error.", hist, log)
        | .ok h' => (.unauthorized "Invalid username/email or password.", h', log)
    | some (aid, rec) =>
        if ¬ compare password rec.password then
          match loginHistoryCreate hist ⟨some aid, ip, ua, false⟩ with
          | .error _ => (.serverError "Server error.", hist, log)
          | .ok h' => (.unauthorized "Invalid username/email or password.", h', log)
        else
          match loginHistoryCreate hist ⟨some aid, ip, ua, true⟩ with
          | .error _ => (.serverError "Server error.", hist, log)
          | .ok h' =>
              (.okLogin aid rec.role, h',
                logAction auditOk leadStore log aid "login" "Admin" .login)

theorem routeUpdate_eq_none {allowed : List LeadField} {body : LeadBody}
    {f : LeadField} (h : f ∉ allowed) : routeUpdate allowed body f = none := by
  simp [routeUpdate, h]

theorem routeUpdate_eq_body {allowed : List LeadField} {body : LeadBody}
    {f : LeadField} (h : f ∈ allowed) : routeUpdate allowed body f = body f := by
  simp [routeUpdate, h]

theorem getField_applyUpdate_none (l : Lead) (u : LeadBody) (f : LeadField)
    (h : u f = none) : (applyUpdate l u).getField f = l.getField f := by
  cases f <;> simp [applyUpdate, Lead.getField, h]

theorem getField_applyUpdate_some (l : Lead) (u : LeadBody) (f : LeadField)
    (v : FieldVal) (h : u f = some v) (hc : FieldVal.compat f v = true) :
    (applyUpdate l u).getField f = v := by
  cases f <;> cases v <;> simp_all [applyUpdate, Lead.getField, FieldVal.compat]

theorem mem_updateFieldsList {allowed : List LeadField} {body : LeadBody}
    {f : LeadField} {v : FieldVal} :
    (f, v) ∈ updateFieldsList allowed body ↔ f ∈ allowed ∧ body f = some v := by
  unfold updateFieldsList
  simp only [List.mem_filterMap, Option.map_eq_some']
  constructor
  · rintro ⟨a, ha, w, hw, hfw⟩
    obtain ⟨rfl, rfl⟩ := Prod.mk.injEq .. ▸ hfw
    exact ⟨ha, hw⟩
  · rintro ⟨ha, hv⟩
    exact ⟨f, ha, v, hv, rfl⟩

theorem filter_key_mem_length_le (store : LeadStore) (ids : List Nat)
    (h : (store.map Prod.fst).Nodup) :
    (store.filter fun e => e.1 ∈ ids).length ≤ ids.length := by
  set l := (store.filter fun e => decide (e.1 ∈ ids)).map Prod.fst with hl
  have hsub : l.Sublist (store.map Prod.fst) :=
    (List.filter_sublist store).map Prod.fst
  have hnd : l.Nodup := h.sublist hsub
  have hmem : ∀ x ∈ l, x ∈ ids := by
    intro x hx
    rw [hl] at hx
    obtain ⟨e, he, rfl⟩ := List.mem_map.mp hx
    have := List.of_mem_filter he
    simpa using this
  have hlen : (store.filter fun e => e.1 ∈ ids).length = l.length := by
    rw [hl, List.length_map]
  rw [hlen]
  calc l.length = l.toFinset.card := (List.toFinset_card_of_nodup hnd).symm
    _ ≤ ids.toFinset.card := by
        apply Finset.card_le_card
        intro x hx
        rw [List.mem_toFinset] at hx ⊢
        exact hmem x hx
    _ ≤ ids.length := List.toFinset_card_le ids

/-- A concrete lead used to instantiate hypotheses and counterexamples:
assigned to admin 2. -/
def sampleLead : Lead :=
  { name := "Asha", email := "asha@example.com", contact := "9000000001",
    countryCode := some "+91", coursename := some "SAP", location := some "Pune",
    status := .new, contactedScore := none, contactedComment := none,
    notes := "", assignedTo := some 2 }

/-- The same lead with `assignedTo = null`. -/
def sampleLeadUnassigned : Lead := { sampleLead with assignedTo := none }

/-- The same lead already in status Contacted. -/
def sampleLeadContacted : Lead := { sampleLead with status := .contacted }

/-- A request body that only sets `notes`. -/
def sampleBody : LeadBody :=
  fun f => if f = .notes then some (.s "follow up") else none

/-- A request body that only sets `status` to Contacted. -/
def statusBody : LeadBody :=
  fun f => if f = .status then some (.st .contacted) else none

/-- A concrete admin account. -/
def sampleAdminRec : AdminRec :=
  { username := "root2", password := "H2", email := some "root2@example.com",
    role := .admin, active := true, location := "Pune" }

/-- A one-admin store whose only account has id 1. -/
def sampleAdmins : AdminStore := [(1, sampleAdminRec)]

/-- C10: An authenticated admin-delete request whose target id equals the
caller's own id is rejected with the 400 `"You cannot delete yourself."`
response and deletes nothing; moreover, for a caller of any role the
admin set is unchanged by a self-targeted request (non-SuperAdmin callers
are stopped by the role gate instead). -/
theorem admin_cannot_delete_self (auditOk : Bool) (a : Actor)
    (admins : AdminStore) (leadStore : LeadStore) (log : List AuditEntry)
    (h : a.role = .superAdmin) :
    (deleteAdminRoute auditOk a admins leadStore log a.id).1 =
      .badRequest "You cannot delete yourself." ∧
    (deleteAdminRoute auditOk a admins leadStore log a.id).2.1 = admins ∧
    (∀ a' : Actor,
      (deleteAdminRoute auditOk a' admins leadStore log a'.id).2.1 = admins) := by
  refine ⟨by simp [deleteAdminRoute, h], by simp [deleteAdminRoute, h], ?_⟩
  intro a'
  by_cases h' : a'.role = .superAdmin <;> simp [deleteAdminRoute, h']

/-- Witness for C10 at a concrete SuperAdmin caller and store. -/
theorem admin_cannot_delete_self_witness :
    (Actor.mk 1 .superAdmin).role = .superAdmin ∧
    (deleteAdminRoute true (Actor.mk 1 .superAdmin) sampleAdmins [] [] 1).1 =
      .badRequest "You cannot delete yourself." ∧
    (deleteAdminRoute true (Actor.mk 1 .superAdmin) sampleAdmins [] [] 1).2.1 =
      sampleAdmins :=
  ⟨rfl,
    (admin_cannot_delete_self true (Actor.mk 1 .superAdmin) sampleAdmins [] [] rfl).1,
    (admin_cannot_delete_self true (Actor.mk 1 .superAdmin) sampleAdmins [] [] rfl).2.1⟩

/-- C8: The permission-grid update rejects any attempt aimed at the
SuperAdmin role with a 4xx response and leaves the whole grant table
unchanged; the table can only ever change when the caller is SuperAdmin
and the target role is not SuperAdmin; and the SuperAdmin grant row
itself survives every call unchanged. -/
theorem superadmin_grant_immutable (auditOk : Bool) (a : Actor)
    (table : List GrantRow) (leadStore : LeadStore) (log : List AuditEntry)
    (target : Role) (permissions : Option PermGrid) :
    (target = .superAdmin →
      ((putRolePermissionsRoute auditOk a table leadStore log target permissions).1 =
          .badRequest "Cannot modify SuperAdmin permissions." ∨
        (putRolePermissionsRoute auditOk a table leadStore log target permissions).1 =
          .badRequest "Permissions are required." ∨
        (putRolePermissionsRoute auditOk a table leadStore log target permissions).1 =
          .forbidden) ∧
      (putRolePermissionsRoute auditOk a table leadStore log target permissions).2.1 =
        table) ∧
    ((putRolePermissionsRoute auditOk a table leadStore log target permissions).2.1 ≠
        table →
      a.role = .superAdmin ∧ target ≠ .superAdmin) ∧
    (∀ row ∈ table, row.role = .superAdmin →
      row ∈ (putRolePermissionsRoute auditOk a table leadStore log target
        permissions).2.1) := by
  by_cases h1 : a.role = .superAdmin
  · cases permissions with
    | none =>
        have hval : putRolePermissionsRoute auditOk a table leadStore log target none =
            (.badRequest "Permissions are required.", table, log) := by
          simp [putRolePermissionsRoute, h1]
        refine ⟨fun _ => ⟨Or.inr (Or.inl (by rw [hval])), by rw [hval]⟩,
          fun hch => absurd (by rw [hval]) hch, fun row hrow _ => by rw [hval]; exact hrow⟩
    | some perms =>
        by_cases ht : target = .superAdmin
        · have hmem : target ∉ [Role.admin, Role.viewMode, Role.editMode] := by
            simp [ht]
          have hval : putRolePermissionsRoute auditOk a table leadStore log target
              (some perms) =
              (.badRequest "Cannot modify SuperAdmin permissions.", table, log) := by
            simp [putRolePermissionsRoute, h1, hmem]
          refine ⟨fun _ => ⟨Or.inl (by rw [hval]), by rw [hval]⟩,
            fun hch => absurd (by rw [hval]) hch, fun row hrow _ => by rw [hval]; exact hrow⟩
        · have hmem : target ∈ [Role.admin, Role.viewMode, Role.editMode] := by
            cases target <;> simp_all
          refine ⟨fun h => absurd h ht, fun _ => ⟨h1, ht⟩, ?_⟩
          intro row hrow hsup
          cases hfind : table.find? fun r => r.role = target with
          | none => simp [putRolePermissionsRoute, h1, hmem, hfind, hrow]
          | some g =>
              have hval : putRolePermissionsRoute auditOk a table leadStore log target
                  (some perms) =
                  (.okGrant ⟨target, perms⟩,
                    table.map fun r =>
                      if r.role = target then { r with permissions := perms } else r,
                    logAction auditOk leadStore log a.id "update_role_permissions"
                      "RolePermission" (.updateRolePermissions target perms)) := by
                simp [putRolePermissionsRoute, h1, hmem, hfind]
              rw [hval]
              have hne : row.role ≠ target := fun hc => ht (hc ▸ hsup ▸ rfl)
              exact List.mem_map.mpr ⟨row, hrow, by simp [hne]⟩
  · have hval : ∀ x,
        putRolePermissionsRoute auditOk a table leadStore log target x =
          (.forbidden, table, log) := by
      intro x
      simp [putRolePermissionsRoute, h1]
    refine ⟨fun _ => ⟨Or.inr (Or.inr (by rw [hval])), by rw [hval]⟩,
      fun hch => absurd (by rw [hval]) hch,
      fun row hrow _ => by rw [hval]; exact hrow⟩

/-- Witness for C8: a SuperAdmin caller aiming at the SuperAdmin grant on
the seeded table gets the 4xx and the table is unchanged. -/
theorem superadmin_grant_immutable_witness :
    ((putRolePermissionsRoute true (Actor.mk 1 .superAdmin) serverDefaultGrants
        [] [] .superAdmin none).1 =
        .badRequest "Cannot modify SuperAdmin permissions." ∨
      (putRolePermissionsRoute true (Actor.mk 1 .superAdmin) serverDefaultGrants
        [] [] .superAdmin none).1 =
        .badRequest "Permissions are required." ∨
      (putRolePermissionsRoute true (Actor.mk 1 .superAdmin) serverDefaultGrants
        [] [] .superAdmin none).1 =
        .forbidden) ∧
    (putRolePermissionsRoute true (Actor.mk 1 .superAdmin) serverDefaultGrants
      [] [] .superAdmin none).2.1 = serverDefaultGrants :=
  (superadmin_grant_immutable true (Actor.mk 1 .superAdmin) serverDefaultGrants
    [] [] .superAdmin none).1 rfl

/-- C7: A failing audit-log (or activity-log) write never changes the
response or the store effect of the operation it accompanies.  For every
modelled route, the outcome and the mutated store are identical whether
the log write succeeds (`true`) or throws (`auditOk` arbitrary); only the
log itself may differ.  This is the `try/catch` in `logAction` /
`trackActivity` swallowing the store error. -/
theorem log_failure_never_blocks :
    (∀ (auditOk : Bool) (a : Actor) (setting : Option Bool) (store : LeadStore)
        (log : List AuditEntry) (id : Nat) (body : LeadBody),
      (putLeadRoute auditOk a setting store log id body).1 =
        (putLeadRoute true a setting store log id body).1 ∧
      (putLeadRoute auditOk a setting store log id body).2.1 =
        (putLeadRoute true a setting store log id body).2.1) ∧
    (∀ (auditOk : Bool) (a : Actor) (setting : Option Bool) (store : LeadStore)
        (log : List AuditEntry) (id : Nat) (body : LeadBody),
      (patchLeadRoute auditOk a setting store log id body).1 =
        (patchLeadRoute true a setting store log id body).1 ∧
      (patchLeadRoute auditOk a setting store log id body).2.1 =
        (patchLeadRoute true a setting store log id body).2.1) ∧
    (∀ (auditOk : Bool) (a : Actor) (store : LeadStore) (log : List AuditEntry)
        (id : Nat),
      (deleteLeadRoute auditOk a store log id).1 =
        (deleteLeadRoute true a store log id).1 ∧
      (deleteLeadRoute auditOk a store log id).2.1 =
        (deleteLeadRoute true a store log id).2.1) ∧
    (∀ (auditOk : Bool) (a : Actor) (setting : Option Bool) (store : LeadStore)
        (log : List AuditEntry) (leadIds : List Nat) (updateData : LeadBody),
      (bulkUpdateRoute auditOk a setting store log leadIds updateData).1 =
        (bulkUpdateRoute true a setting store log leadIds updateData).1 ∧
      (bulkUpdateRoute auditOk a setting store log leadIds updateData).2.1 =
        (bulkUpdateRoute true a setting store log leadIds updateData).2.1) ∧
    (∀ (auditOk : Bool) (a : Actor) (store : LeadStore) (log : List AuditEntry)
        (leadIds : List Nat),
      (bulkDeleteRoute auditOk a store log leadIds).1 =
        (bulkDeleteRoute true a store log leadIds).1 ∧
      (bulkDeleteRoute auditOk a store log leadIds).2.1 =
        (bulkDeleteRoute true a store log leadIds).2.1) ∧
    (∀ (auditOk : Bool) (a : Actor) (store : LeadStore) (log : List AuditEntry)
        (id : Nat) (body : LeadBody),
      (putUserRoute auditOk a store log id body).1 =
        (putUserRoute true a store log id body).1 ∧
      (putUserRoute auditOk a store log id body).2.1 =
        (putUserRoute true a store log id body).2.1) ∧
    (∀ (auditOk : Bool) (a : Actor) (admins : AdminStore) (leadStore : LeadStore)
        (log : List AuditEntry) (id : Nat),
      (deleteAdminRoute auditOk a admins leadStore log id).1 =
        (deleteAdminRoute true a admins leadStore log id).1 ∧
      (deleteAdminRoute auditOk a admins leadStore log id).2.1 =
        (deleteAdminRoute true a admins leadStore log id).2.1) ∧
    (∀ (auditOk : Bool) (a : Actor) (table : List GrantRow) (leadStore : LeadStore)
        (log : List AuditEntry) (target : Role) (permissions : Option PermGrid),
      (putRolePermissionsRoute auditOk a table leadStore log target permissions).1 =
        (putRolePermissionsRoute true a table leadStore log target permissions).1 ∧
      (putRolePermissionsRoute auditOk a table leadStore log target permissions).2.1 =
        (putRolePermissionsRoute true a table leadStore log target permissions).2.1) ∧
    (∀ (auditOk : Bool) (compare : String → String → Bool) (admins : AdminStore)
        (leadStore : LeadStore) (hist : List LoginEntry) (log : List AuditEntry)
        (username password ip ua : String),
      (adminLogin auditOk compare admins leadStore hist log username password ip ua).1 =
        (adminLogin true compare admins leadStore hist log username password ip ua).1 ∧
      (adminLogin auditOk compare admins leadStore hist log username password ip ua).2.1 =
        (adminLogin true compare admins leadStore hist log username password ip ua).2.1) ∧
    (∀ (activityOk : Bool) (a : Actor) (alog : List ActivityEntry)
        (action page details : String),
      (activityRoute activityOk a alog action page details).1 =
        (activityRoute true a alog action page details).1) := by
  refine ⟨?_, ?_, ?_, ?_, ?_, ?_, ?_, ?_, ?_, ?_⟩
  · intro auditOk a setting store log id body
    by_cases h1 : a.role ∈ [Role.superAdmin, Role.admin, Role.editMode]
    · cases hfind : findById store id <;> simp [putLeadRoute, h1, hfind]
    · simp [putLeadRoute, h1]
  · intro auditOk a setting store log id body
    have h1 : a.role ∈ [Role.superAdmin, Role.admin, Role.editMode, Role.viewMode] := by
      cases a.role <;> simp
    cases hfind : findById store id with
    | none => simp [patchLeadRoute, h1, hfind]
    | some orig =>
        by_cases h2 : (setting.getD false) ∧ a.role ≠ .superAdmin ∧
            a.role ≠ .admin ∧ orig.assignedTo ≠ some a.id
        · simp [patchLeadRoute, h1, hfind, h2]
        · simp [patchLeadRoute, h1, hfind, h2]
  · intro auditOk a store log id
    by_cases h1 : a.role ∈ [Role.superAdmin, Role.admin]
    · cases hfind : findById store id <;> simp [deleteLeadRoute, h1, hfind]
    · simp [deleteLeadRoute, h1]
  · intro auditOk a setting store log leadIds updateData
    by_cases h1 : a.role ∈ [Role.superAdmin, Role.admin, Role.editMode]
    · by_cases h2 : leadIds.length = 0
      · simp [bulkUpdateRoute, h1, h2]
      · by_cases h3 : (updateFieldsList putAllowedFields updateData).length = 0
        · simp [bulkUpdateRoute, h1, h2, h3]
        · simp [bulkUpdateRoute, h1, h2, h3]
    · simp [bulkUpdateRoute, h1]
  · intro auditOk a store log leadIds
    by_cases h1 : a.role ∈ [Role.superAdmin, Role.admin]
    · by_cases h2 : leadIds.length = 0
      · simp [bulkDeleteRoute, h1, h2]
      · simp [bulkDeleteRoute, h1, h2]
    · simp [bulkDeleteRoute, h1]
  · intro auditOk a store log id body
    by_cases h1 : a.role ∈ [Role.superAdmin, Role.admin, Role.editMode]
    · cases hfind : findById store id <;> simp [putUserRoute, h1, hfind]
    · simp [putUserRoute, h1]
  · intro auditOk a admins leadStore log id
    by_cases h1 : a.role = Role.superAdmin
    · by_cases h2 : a.id = id
      · simp [deleteAdminRoute, h1, h2]
      · cases hfind : findAdminById admins id <;> simp [deleteAdminRoute, h1, h2, hfind]
    · simp [deleteAdminRoute, h1]
  · intro auditOk a table leadStore log target permissions
    by_cases h1 : a.role = Role.superAdmin
    · cases permissions with
      | none => simp [putRolePermissionsRoute, h1]
      | some perms =>
          by_cases ht : target ∈ [Role.admin, Role.viewMode, Role.editMode]
          · cases hfind : table.find? fun r => r.role = target <;>
              simp [putRolePermissionsRoute, h1, ht, hfind]
          · simp [putRolePermissionsRoute, h1, ht]
    · simp [putRolePermissionsRoute, h1]
  · intro auditOk compare admins leadStore hist log username password ip ua
    by_cases h0 : username = "" ∨ password = ""
    · simp [adminLogin, h0]
    · cases hfa : findAdminForLogin admins username with
      | none => simp [adminLogin, h0, hfa, loginHistoryCreate]
      | some hit =>
          obtain ⟨aid, rec⟩ := hit
          by_cases hcmp : compare password rec.password
          · simp [adminLogin, h0, hfa, hcmp, loginHistoryCreate]
          · simp [adminLogin, h0, hfa, hcmp, loginHistoryCreate]
  · intro activityOk a alog action page details
    rfl

/-- C1 counterexample: with `restrictLeadEditing = true`, an EditMode
actor (id 1) performs a full update (PUT) on a lead assigned to admin 2:
the mutation is NOT denied — it succeeds and changes the store — because
the PUT handler contains no restriction check. -/
theorem restriction_ignored_by_put_route :
    sampleLead.assignedTo = some 2 ∧ (Actor.mk 1 .editMode).id ≠ 2 ∧
    (putLeadRoute true (Actor.mk 1 .editMode) (some true) [(5, sampleLead)] [] 5
        sampleBody).1 =
      .okLead (applyUpdate sampleLead (routeUpdate putAllowedFields sampleBody)) ∧
    (putLeadRoute true (Actor.mk 1 .editMode) (some true) [(5, sampleLead)] [] 5
        sampleBody).2.1 ≠ [(5, sampleLead)] := by
  refine ⟨rfl, by decide, rfl, by decide⟩

/-- C1 (amended): the restriction-mode invariant holds for the
partial-update (PATCH) endpoint only: with `restrictLeadEditing = true`, a
ViewMode or EditMode actor is denied with the restricted 403 exactly when
the lead's `assignedTo` differs from the actor's id and succeeds when they
are equal, and SuperAdmin/Admin are never restricted there; the
full-update (PUT) and bulk-update endpoints never produce the restricted
denial for any setting value (they apply no restriction check; ViewMode is
stopped there by the plain role gate instead). -/
theorem restriction_enforced_only_in_patch (auditOk : Bool) (a : Actor)
    (store : LeadStore) (log : List AuditEntry) (id : Nat) (body : LeadBody)
    (orig : Lead) (hfind : findById store id = some orig) :
    ((a.role = .viewMode ∨ a.role = .editMode) →
      (orig.assignedTo ≠ some a.id →
        (patchLeadRoute auditOk a (some true) store log id body).1 =
          .forbiddenRestricted) ∧
      (orig.assignedTo = some a.id →
        (patchLeadRoute auditOk a (some true) store log id body).1 =
          .okLead (applyUpdate orig (routeUpdate (patchAllowedFields a.role) body)))) ∧
    ((a.role = .superAdmin ∨ a.role = .admin) →
      (patchLeadRoute auditOk a (some true) store log id body).1 =
        .okLead (applyUpdate orig (routeUpdate (patchAllowedFields a.role) body))) ∧
    (∀ setting : Option Bool,
      (putLeadRoute auditOk a setting store log id body).1 ≠ .forbiddenRestricted) ∧
    (∀ (setting : Option Bool) (leadIds : List Nat) (updateData : LeadBody),
      (bulkUpdateRoute auditOk a setting store log leadIds updateData).1 ≠
        .forbiddenRestricted) := by
  have hmem : a.role ∈ [Role.superAdmin, Role.admin, Role.editMode, Role.viewMode] := by
    cases a.role <;> simp
  refine ⟨?_, ?_, ?_, ?_⟩
  · intro hrole
    have h1 : a.role ≠ Role.superAdmin := by rcases hrole with h | h <;> simp [h]
    have h2 : a.role ≠ Role.admin := by rcases hrole with h | h <;> simp [h]
    constructor
    · intro hne
      simp [patchLeadRoute, hmem, hfind, h1, h2, hne]
    · intro heq
      simp [patchLeadRoute, hmem, hfind, heq]
  · intro hrole
    rcases hrole with h | h <;> simp [patchLeadRoute, hmem, hfind, h]
  · intro setting
    by_cases h1 : a.role ∈ [Role.superAdmin, Role.admin, Role.editMode]
    · simp [putLeadRoute, h1, hfind]
    · simp [putLeadRoute, h1]
  · intro setting leadIds updateData
    by_cases h1 : a.role ∈ [Role.superAdmin, Role.admin, Role.editMode]
    · by_cases h2 : leadIds.length = 0
      · simp [bulkUpdateRoute, h1, h2]
      · by_cases h3 : (updateFieldsList putAllowedFields updateData).length = 0 <;>
          simp [bulkUpdateRoute, h1, h2, h3]
    · simp [bulkUpdateRoute, h1]

/-- Witness for C1 (amended): concrete EditMode actor 1, a lead assigned
to admin 2: PATCH is denied with the restricted 403 while PUT is not. -/
theorem restriction_enforced_only_in_patch_witness :
    findById [(5, sampleLead)] 5 = some sampleLead ∧
    (patchLeadRoute true (Actor.mk 1 .editMode) (some true) [(5, sampleLead)] [] 5
        statusBody).1 = .forbiddenRestricted ∧
    (putLeadRoute true (Actor.mk 1 .editMode) (some true) [(5, sampleLead)] [] 5
        statusBody).1 ≠ .forbiddenRestricted := by
  have h := restriction_enforced_only_in_patch true (Actor.mk 1 .editMode)
    [(5, sampleLead)] [] 5 statusBody sampleLead rfl
  exact ⟨rfl, (h.1 (Or.inr rfl)).1 (by decide), h.2.2.1 (some true)⟩

/-- C5 counterexample: with `restrictLeadEditing = true`, a lead whose
`assignedTo` is null IS editable by an EditMode actor — through the PUT
route, which never runs the restriction check — so "can never be edited by
a non-privileged role" fails as stated. -/
theorem null_assigned_lead_editable_via_put :
    sampleLeadUnassigned.assignedTo = none ∧
    (putLeadRoute true (Actor.mk 1 .editMode) (some true) [(6, sampleLeadUnassigned)]
        [] 6 sampleBody).1 =
      .okLead (applyUpdate sampleLeadUnassigned (routeUpdate putAllowedFields sampleBody)) ∧
    (putLeadRoute true (Actor.mk 1 .editMode) (some true) [(6, sampleLeadUnassigned)]
        [] 6 sampleBody).2.1 ≠ [(6, sampleLeadUnassigned)] := by
  refine ⟨rfl, rfl, by decide⟩

/-- C5 (amended): on the PATCH endpoint the claim holds: with
`restrictLeadEditing = true`, a null-assigned lead is never editable by an
actor that is neither SuperAdmin nor Admin — the request is denied with
the restricted 403 and nothing changes — and the assignment comparison is
by id value: whenever `assignedTo` holds exactly the actor's id the gate
passes.  The PUT and bulk-update endpoints do not enforce this. -/
theorem null_assigned_locked_in_patch (auditOk : Bool) (a : Actor)
    (store : LeadStore) (log : List AuditEntry) (id : Nat) (body : LeadBody)
    (orig : Lead) (hfind : findById store id = some orig)
    (hnull : orig.assignedTo = none)
    (h1 : a.role ≠ .superAdmin) (h2 : a.role ≠ .admin) :
    (patchLeadRoute auditOk a (some true) store log id body).1 =
      .forbiddenRestricted ∧
    (patchLeadRoute auditOk a (some true) store log id body).2.1 = store ∧
    (patchLeadRoute auditOk a (some true) store log id body).2.2 = log ∧
    (∀ (store' : LeadStore) (log' : List AuditEntry) (id' : Nat) (orig' : Lead),
      findById store' id' = some orig' → orig'.assignedTo = some a.id →
      (patchLeadRoute auditOk a (some true) store' log' id' body).1 ≠
        .forbiddenRestricted) := by
  have hmem : a.role ∈ [Role.superAdmin, Role.admin, Role.editMode, Role.viewMode] := by
    cases a.role <;> simp
  have hne : orig.assignedTo ≠ some a.id := by simp [hnull]
  refine ⟨?_, ?_, ?_, ?_⟩
  · simp [patchLeadRoute, hmem, hfind, h1, h2, hne]
  · simp [patchLeadRoute, hmem, hfind, h1, h2, hne]
  · simp [patchLeadRoute, hmem, hfind, h1, h2, hne]
  · intro store' log' id' orig' hfind' heq
    simp [patchLeadRoute, hmem, hfind', heq]

/-- Witness for C5 (amended): ViewMode actor 1 on a concrete null-assigned
lead: the PATCH is denied with the restricted 403 and the store survives. -/
theorem null_assigned_locked_in_patch_witness :
    (patchLeadRoute true (Actor.mk 1 .viewMode) (some true)
        [(7, sampleLeadUnassigned)] [] 7 statusBody).1 = .forbiddenRestricted ∧
    (patchLeadRoute true (Actor.mk 1 .viewMode) (some true)
        [(7, sampleLeadUnassigned)] [] 7 statusBody).2.1 =
      [(7, sampleLeadUnassigned)] := by
  have h := null_assigned_locked_in_patch true (Actor.mk 1 .viewMode)
    [(7, sampleLeadUnassigned)] [] 7 statusBody sampleLeadUnassigned rfl rfl
    (by decide) (by decide)
  exact ⟨h.1, h.2.1⟩

theorem mem_updateDelta {orig : Lead} {allowed : List LeadField} {body : LeadBody}
    {f : LeadField} {fv tv : FieldVal} :
    (f, fv, tv) ∈ updateDelta orig allowed body ↔
      f ∈ allowed ∧ body f = some tv ∧ fv = orig.getField f := by
  unfold updateDelta
  simp only [List.mem_map]
  constructor
  · rintro ⟨⟨g, w⟩, hmem, heq⟩
    obtain ⟨rfl, h2, rfl⟩ : g = f ∧ orig.getField g = fv ∧ w = tv := by
      simpa [Prod.ext_iff] using heq
    obtain ⟨h1, hb⟩ := mem_updateFieldsList.mp hmem
    exact ⟨h1, hb, h2.symm⟩
  · rintro ⟨h1, h2, rfl⟩
    exact ⟨(f, tv), mem_updateFieldsList.mpr ⟨h1, h2⟩, rfl⟩

/-- The delta component of an audit-metadata value. -/
def AuditMeta.deltaOf : AuditMeta → List (LeadField × FieldVal × FieldVal)
  | .update _ _ _ _ d => d
  | _ => []

theorem deltaOf_enrichMeta_update (st : LeadStore) (uid : Nat) (n e c : String)
    (d : List (LeadField × FieldVal × FieldVal)) :
    (enrichMeta st (.update uid n e c d)).deltaOf = d := by
  cases hfind : findById st uid <;> simp [enrichMeta, AuditMeta.deltaOf, hfind]

theorem putLeadRoute_ok (auditOk : Bool) (a : Actor) (setting : Option Bool)
    (store : LeadStore) (log : List AuditEntry) (id : Nat) (body : LeadBody)
    (orig : Lead) (hfind : findById store id = some orig)
    (hrole : a.role ∈ [Role.superAdmin, Role.admin, Role.editMode]) :
    putLeadRoute auditOk a setting store log id body =
      (.okLead (applyUpdate orig (routeUpdate putAllowedFields body)),
       storeSet store id (applyUpdate orig (routeUpdate putAllowedFields body)),
       logAction auditOk
         (storeSet store id (applyUpdate orig (routeUpdate putAllowedFields body)))
         log a.id "update_lead" "User"
         (.update id orig.name orig.email orig.contact
           (updateDelta orig putAllowedFields body))) := by
  simp [putLeadRoute, hrole, hfind]

theorem patchLeadRoute_ok (auditOk : Bool) (a : Actor) (setting : Option Bool)
    (store : LeadStore) (log : List AuditEntry) (id : Nat) (body : LeadBody)
    (orig : Lead) (hfind : findById store id = some orig)
    (hpass : ¬ ((setting.getD false) ∧ a.role ≠ .superAdmin ∧ a.role ≠ .admin ∧
      orig.assignedTo ≠ some a.id)) :
    patchLeadRoute auditOk a setting store log id body =
      (.okLead (applyUpdate orig (routeUpdate (patchAllowedFields a.role) body)),
       storeSet store id (applyUpdate orig (routeUpdate (patchAllowedFields a.role) body)),
       logAction auditOk
         (storeSet store id
           (applyUpdate orig (routeUpdate (patchAllowedFields a.role) body)))
         log a.id "update_lead" "User"
         (.update id orig.name orig.email orig.contact
           (updateDelta orig (patchAllowedFields a.role) body))) := by
  have hmem : a.role ∈ [Role.superAdmin, Role.admin, Role.editMode, Role.viewMode] := by
    cases a.role <;> simp
  simp [patchLeadRoute, hmem, hfind, hpass]

theorem patchLeadRoute_okLead_inv (auditOk : Bool) (a : Actor)
    (setting : Option Bool) (store : LeadStore) (log : List AuditEntry)
    (id : Nat) (body : LeadBody) (orig l : Lead)
    (hfind : findById store id = some orig)
    (hok : (patchLeadRoute auditOk a setting store log id body).1 = .okLead l) :
    l = applyUpdate orig (routeUpdate (patchAllowedFields a.role) body) ∧
    ¬ ((setting.getD false) ∧ a.role ≠ .superAdmin ∧ a.role ≠ .admin ∧
        orig.assignedTo ≠ some a.id) := by
  have hmem : a.role ∈ [Role.superAdmin, Role.admin, Role.editMode, Role.viewMode] := by
    cases a.role <;> simp
  by_cases h2 : (setting.getD false) ∧ a.role ≠ .superAdmin ∧ a.role ≠ .admin ∧
      orig.assignedTo ≠ some a.id
  · simp [patchLeadRoute, hmem, hfind, h2] at hok
  · rw [patchLeadRoute_ok auditOk a setting store log id body orig hfind h2] at hok
    exact ⟨(Outcome.okLead.inj hok).symm, h2⟩

/-- C9: On the PATCH lead endpoint, a ViewMode caller can only ever change
`contactedScore`, `contactedComment` and `status`: on any successful
PATCH by ViewMode every other field of the lead is unchanged no matter
what the request body supplied, and the three whitelisted fields take the
supplied values; a SuperAdmin, Admin or EditMode caller's successful
PATCH applies every supplied field of its expanded whitelist. -/
theorem patch_viewmode_field_frame (auditOk : Bool) (a : Actor)
    (setting : Option Bool) (store : LeadStore) (log : List AuditEntry)
    (id : Nat) (body : LeadBody) (orig l : Lead)
    (hfind : findById store id = some orig) :
    (a.role = .viewMode →
      (patchLeadRoute auditOk a setting store log id body).1 = .okLead l →
      (∀ f : LeadField, f ∉ patchBaseFields → l.getField f = orig.getField f) ∧
      (∀ f v, f ∈ patchBaseFields → body f = some v → FieldVal.compat f v = true →
        l.getField f = v)) ∧
    ((a.role = .superAdmin ∨ a.role = .admin ∨ a.role = .editMode) →
      (patchLeadRoute auditOk a setting store log id body).1 = .okLead l →
      ∀ f v, f ∈ patchAllowedFields a.role → body f = some v →
        FieldVal.compat f v = true → l.getField f = v) := by
  constructor
  · intro hrole hok
    obtain ⟨hl, -⟩ := patchLeadRoute_okLead_inv auditOk a setting store log id body
      orig l hfind hok
    have hbase : patchAllowedFields a.role = patchBaseFields := by
      simp [patchAllowedFields, hrole]
    constructor
    · intro f hf
      rw [hl]
      exact getField_applyUpdate_none orig _ f
        (by rw [hbase]; exact routeUpdate_eq_none hf)
    · intro f v hf hb hc
      rw [hl]
      exact getField_applyUpdate_some orig _ f v
        (by rw [hbase, routeUpdate_eq_body hf]; exact hb) hc
  · intro _ hok
    obtain ⟨hl, -⟩ := patchLeadRoute_okLead_inv auditOk a setting store log id body
      orig l hfind hok
    intro f v hf hb hc
    rw [hl]
    exact getField_applyUpdate_some orig _ f v
      (by rw [routeUpdate_eq_body hf]; exact hb) hc

/-- The ViewMode PATCH body of the C9 witness: tries to set both `status`
and `name`. -/
def vmBody : LeadBody :=
  fun f => if f = .status then some (.st .contacted)
    else if f = .name then some (.s "Mallory") else none

/-- The lead produced by that PATCH. -/
def vmUpdated : Lead :=
  applyUpdate sampleLead (routeUpdate (patchAllowedFields .viewMode) vmBody)

/-- Witness for C9: a concrete ViewMode PATCH that tries to overwrite the
name field: the status is applied, the name survives. -/
theorem patch_viewmode_field_frame_witness :
    ((patchLeadRoute true (Actor.mk 2 .viewMode) none [(5, sampleLead)] [] 5
        vmBody).1 = .okLead vmUpdated) ∧
    vmUpdated.getField .name = sampleLead.getField .name ∧
    vmUpdated.getField .status = .st .contacted := by
  have hok : (patchLeadRoute true (Actor.mk 2 .viewMode) none [(5, sampleLead)] [] 5
      vmBody).1 = .okLead vmUpdated := rfl
  have h := patch_viewmode_field_frame true (Actor.mk 2 .viewMode) none
    [(5, sampleLead)] [] 5 vmBody sampleLead vmUpdated rfl
  refine ⟨hok, ?_, ?_⟩
  · exact (h.1 rfl hok).1 .name (by decide)
  · exact (h.1 rfl hok).2 .status (.st .contacted) (by decide) rfl rfl

/-- C3 counterexample: the user-update endpoint (`PUT /api/users/:id`)
logs only `{ userId, updateFields }` — the new values — so two runs from
different pre-states (a lead in status New vs one already Contacted)
produce identical audit logs: the pre-state is not reconstructible from
that endpoint's log alone, refuting the claim for the user-update path. -/
theorem user_update_audit_loses_prestate :
    sampleLead ≠ sampleLeadContacted ∧
    (putUserRoute true (Actor.mk 1 .admin) [(5, sampleLead)] [] 5 statusBody).2.2 =
      (putUserRoute true (Actor.mk 1 .admin) [(5, sampleLeadContacted)] [] 5
        statusBody).2.2 ∧
    (putUserRoute true (Actor.mk 1 .admin) [(5, sampleLead)] [] 5 statusBody).1 =
      .okMsg "User updated." := by
  refine ⟨by decide, rfl, rfl⟩

/-- C3 (amended): for every successful lead update through the full-update
(PUT) or partial-update (PATCH) lead endpoint, the handler writes exactly
one audit entry whose metadata delta has, for every field supplied in the
update, the `{from, to}` pair with `from` the pre-mutation value and `to`
the value written (the post-mutation value when it casts), and nothing
else; the user-update endpoint (`PUT /api/users/:id`) records only the new
values, so the pre-state is not reconstructible from its entries. -/
theorem lead_update_audit_delta (a : Actor) (setting : Option Bool)
    (store : LeadStore) (log : List AuditEntry) (id : Nat) (body : LeadBody)
    (orig l : Lead) (hfind : findById store id = some orig) :
    ((putLeadRoute true a setting store log id body).1 = .okLead l →
      (putLeadRoute true a setting store log id body).2.2 =
        log ++ [⟨a.id, "update_lead", "User",
          enrichMeta (putLeadRoute true a setting store log id body).2.1
            (.update id orig.name orig.email orig.contact
              (updateDelta orig putAllowedFields body))⟩] ∧
      (enrichMeta (putLeadRoute true a setting store log id body).2.1
          (.update id orig.name orig.email orig.contact
            (updateDelta orig putAllowedFields body))).deltaOf =
        updateDelta orig putAllowedFields body ∧
      (∀ f v, f ∈ putAllowedFields → body f = some v →
        (f, orig.getField f, v) ∈ updateDelta orig putAllowedFields body ∧
        (FieldVal.compat f v = true → l.getField f = v)) ∧
      (∀ f fv tv, (f, fv, tv) ∈ updateDelta orig putAllowedFields body →
        fv = orig.getField f ∧ body f = some tv)) ∧
    ((patchLeadRoute true a setting store log id body).1 = .okLead l →
      (patchLeadRoute true a setting store log id body).2.2 =
        log ++ [⟨a.id, "update_lead", "User",
          enrichMeta (patchLeadRoute true a setting store log id body).2.1
            (.update id orig.name orig.email orig.contact
              (updateDelta orig (patchAllowedFields a.role) body))⟩] ∧
      (∀ f v, f ∈ patchAllowedFields a.role → body f = some v →
        (f, orig.getField f, v) ∈ updateDelta orig (patchAllowedFields a.role) body ∧
        (FieldVal.compat f v = true → l.getField f = v)) ∧
      (∀ f fv tv, (f, fv, tv) ∈ updateDelta orig (patchAllowedFields a.role) body →
        fv = orig.getField f ∧ body f = some tv)) := by
  constructor
  · intro hok
    by_cases hrole : a.role ∈ [Role.superAdmin, Role.admin, Role.editMode]
    case neg => simp [putLeadRoute, hrole] at hok
    have hval := putLeadRoute_ok true a setting store log id body orig hfind hrole
    have hl : l = applyUpdate orig (routeUpdate putAllowedFields body) := by
      rw [hval] at hok
      exact (Outcome.okLead.inj hok).symm
    refine ⟨?_, ?_, ?_, ?_⟩
    · rw [hval]
      simp [logAction]
    · exact deltaOf_enrichMeta_update _ _ _ _ _ _
    · intro f v hf hb
      refine ⟨mem_updateDelta.mpr ⟨hf, hb, rfl⟩, fun hc => ?_⟩
      rw [hl]
      exact getField_applyUpdate_some orig _ f v
        (by rw [routeUpdate_eq_body hf]; exact hb) hc
    · intro f fv tv hmem
      obtain ⟨_, h2, h3⟩ := mem_updateDelta.mp hmem
      exact ⟨h3, h2⟩
  · intro hok
    obtain ⟨hl, hpass⟩ := patchLeadRoute_okLead_inv true a setting store log id body
      orig l hfind hok
    have hval := patchLeadRoute_ok true a setting store log id body orig hfind hpass
    refine ⟨?_, ?_, ?_⟩
    · rw [hval]
      simp [logAction]
    · intro f v hf hb
      refine ⟨mem_updateDelta.mpr ⟨hf, hb, rfl⟩, fun hc => ?_⟩
      rw [hl]
      exact getField_applyUpdate_some orig _ f v
        (by rw [routeUpdate_eq_body hf]; exact hb) hc
    · intro f fv tv hmem
      obtain ⟨_, h2, h3⟩ := mem_updateDelta.mp hmem
      exact ⟨h3, h2⟩

/-- Witness for C3 (amended): an Admin full-updates a concrete lead's
status; the delta entry for `status` carries `from = New`, `to =
Contacted` and the appended entry is the only new one. -/
theorem lead_update_audit_delta_witness :
    ((LeadField.status, Lead.getField sampleLead .status, FieldVal.st .contacted) ∈
      updateDelta sampleLead putAllowedFields statusBody) ∧
    (putLeadRoute true (Actor.mk 1 .admin) none [(5, sampleLead)] [] 5 statusBody).2.2 =
      [⟨1, "update_lead", "User",
        enrichMeta (putLeadRoute true (Actor.mk 1 .admin) none [(5, sampleLead)] []
            5 statusBody).2.1
          (.update 5 sampleLead.name sampleLead.email sampleLead.contact
            (updateDelta sampleLead putAllowedFields statusBody))⟩] := by
  have h := lead_update_audit_delta (Actor.mk 1 .admin) none [(5, sampleLead)] [] 5
    statusBody sampleLead
    (applyUpdate sampleLead (routeUpdate putAllowedFields statusBody)) rfl
  have hok : (putLeadRoute true (Actor.mk 1 .admin) none [(5, sampleLead)] [] 5
      statusBody).1 =
      .okLead (applyUpdate sampleLead (routeUpdate putAllowedFields statusBody)) := rfl
  refine ⟨((h.1 hok).2.2.1 .status (.st .contacted) (by decide) rfl).1, ?_⟩
  exact (h.1 hok).1

/-- C4: A bulk-delete request with a non-empty id list mixing existing and
absent ids succeeds: the reported `deletedCount` is the number of ids that
actually matched stored leads — at most the length of the input list, the
absent ids being silently dropped — the store loses exactly the matched
documents, and the single audit entry records exactly that existing
subset with `count` equal to the store's deleted count. -/
theorem bulk_delete_audit_exact (a : Actor) (store : LeadStore)
    (log : List AuditEntry) (leadIds : List Nat)
    (hrole : a.role = .superAdmin ∨ a.role = .admin)
    (hne : leadIds ≠ [])
    (hnodup : (store.map Prod.fst).Nodup)
    (hpresent : ∃ i ∈ leadIds, (findById store i).isSome)
    (habsent : ∃ j ∈ leadIds, (findById store j).isNone) :
    (bulkDeleteRoute true a store log leadIds).1 =
      .okBulk (store.filter fun e => e.1 ∈ leadIds).length ∧
    (store.filter fun e => e.1 ∈ leadIds).length ≤ leadIds.length ∧
    (bulkDeleteRoute true a store log leadIds).2.1 =
      (store.filter fun e => e.1 ∉ leadIds) ∧
    (bulkDeleteRoute true a store log leadIds).2.2 = log ++
      [⟨a.id, "bulk_delete_leads", "User",
        .bulkDelete (store.filter fun e => e.1 ∈ leadIds).length leadIds
          ((store.filter fun e => e.1 ∈ leadIds).map fun e =>
            LeadInfo.mk e.1 e.2.name e.2.email e.2.contact (some e.2.status))⟩] := by
  have hmem : a.role ∈ [Role.superAdmin, Role.admin] := by
    rcases hrole with h | h <;> simp [h]
  have hlen : ¬ leadIds.length = 0 := by
    simpa [List.length_eq_zero] using hne
  refine ⟨?_, filter_key_mem_length_le store leadIds hnodup, ?_, ?_⟩ <;>
    simp [bulkDeleteRoute, hmem, hlen, logAction, enrichMeta]

/-- Witness for C4: a two-lead store, a request for ids 1 and 3 of which
only 1 exists: one deletion, count 1 ≤ 2. -/
theorem bulk_delete_audit_exact_witness :
    (bulkDeleteRoute true (Actor.mk 9 .admin)
        [(1, sampleLead), (2, sampleLeadUnassigned)] [] [1, 3]).1 =
      .okBulk ([(1, sampleLead), (2, sampleLeadUnassigned)].filter
        fun e => e.1 ∈ [1, 3]).length ∧
    ([(1, sampleLead), (2, sampleLeadUnassigned)].filter
        fun e => e.1 ∈ [1, 3]).length ≤ 2 := by
  have h := bulk_delete_audit_exact (Actor.mk 9 .admin)
    [(1, sampleLead), (2, sampleLeadUnassigned)] [] [1, 3]
    (Or.inr rfl) (by decide) (by decide)
    ⟨1, by decide, by rfl⟩ ⟨3, by decide, by rfl⟩
  exact ⟨h.1, h.2.1⟩

/-- The admin store of the C2 evaluation: one active admin `alice` with
password hash `H1`. -/
def loginAdmins : AdminStore :=
  [(7, { username := "alice", password := "H1", email := some "alice@example.com",
         role := .admin, active := true, location := "Pune" })]

/-- The bcrypt collaborator of the C2 evaluation: accepts exactly the
plaintext `pw` against the hash `H1`. -/
def sampleCompare : String → String → Bool :=
  fun plain hash => plain == "pw" && hash == "H1"

/-- C2 (code bug): the two failure modes of the login route are NOT
uniform.  A non-existent username makes the handler call
`LoginHistory.create({ adminId: null, success: false })`, but the
login-history schema declares `adminId` as `required: true`, so the
create throws a validation error, the outer catch answers 500
`"Server error."`, and no history row is written; a wrong password on an
existing active account answers 401 with the uniform message and writes
exactly one `success = false` row carrying the account id. -/
theorem login_failure_not_uniform :
    (adminLogin true sampleCompare loginAdmins [] [] [] "ghost" "pw" "ip1" "ua1").1 =
      .serverError "Server error." ∧
    (adminLogin true sampleCompare loginAdmins [] [] [] "ghost" "pw" "ip1" "ua1").2.1 =
      [] ∧
    (adminLogin true sampleCompare loginAdmins [] [] [] "alice" "bad" "ip1" "ua1").1 =
      .unauthorized "Invalid username/email or password." ∧
    (adminLogin true sampleCompare loginAdmins [] [] [] "alice" "bad" "ip1" "ua1").2.1 =
      [⟨some 7, "ip1", "ua1", false⟩] := by
  refine ⟨by decide, by decide, by decide, by decide⟩
